import Mathlib

/-!
Verification of the flac2m4a batch conversion CLI.

The program (src/index.js, plus one observed variant) converts triples of
sidecar files `<base>.flac` / `<base>.jpg` / `<base>.lrc` into `<base>.m4a`
by spawning an external ffmpeg process. We embed the script shallowly:

* the filesystem is a directory listing plus an existence oracle (`FS`);
* the spawned engine is an oracle from argument lists to child-process
  outcomes (`Engine`), as suggested by the substitutable-launcher design;
* each `async` function is a pure function returning
  `Except JsError Unit × Trace`, where `Except.error` models a rejected
  promise and the `Trace` records every `spawn` call (argument lists) and
  every console line (as `LogEvent` values carrying the interpolated data).

Functions from src/index.js live in the `Src` namespace; the observed
variant (src/unnamed/part_000) contributes `Variant.processSingleFile`.
-/

/-- JavaScript `String.prototype.toLowerCase()` (per-character lowering;
the repository only ever lowercases ASCII file extensions). -/
def lowerString (s : String) : String := ⟨s.data.map Char.toLower⟩

/-- Index of the last `'.'` in a string, if any. -/
def lastDotIdx (s : String) : Option Nat :=
  match s.data.reverse.findIdx? (· == '.') with
  | none => none
  | some j => some (s.data.length - 1 - j)

/-- Node `path.extname` for a name containing no path separator (the script
only applies it to `readdirSync` entries): the substring from the last dot
to the end, except that a name with no dot, a name whose only dot is its
first character (hidden files such as `.flac`), and the special name `..`
all have extension `""`. -/
def extname (f : String) : String :=
  match lastDotIdx f with
  | none => ""
  | some 0 => ""
  | some i => if f = ".." then "" else ⟨f.data.drop i⟩

/-- Node `path.basename(f, ext)` for a name `f` containing no path
separator: strips the suffix `ext` when `f` ends with it and is not equal
to it (Node returns a name consisting entirely of the suffix unchanged). -/
def jsBasenameSuffix (f ext : String) : String :=
  if f = ext then f
  else if ext.data.isSuffixOf f.data then ⟨f.data.take (f.data.length - ext.data.length)⟩
  else f

/-- Node `path.basename(p)` for a path not ending in a separator: the
portion after the last `'/'`. Used only for log messages. -/
def jsBasename (p : String) : String :=
  ⟨(p.data.reverse.takeWhile (fun c => !(c == '/'))).reverse⟩

/-- Node `path.join(dir, name)` for a non-empty `dir` without a trailing
separator, which is how the script always calls it. -/
def pathJoin (dir name : String) : String := dir ++ "/" ++ name

/-- Outcome of one `spawn` of the external engine, as observed through the
`close` and `error` events of the child process: either the child ran and
exited with a status code, or it could not be started. -/
inductive SpawnResult where
  | exited (code : Int)
  | errorEvent (err : String)
deriving DecidableEq, Repr

/-- The external engine as an oracle: what outcome a `spawn` with a given
argument list produces. -/
def Engine : Type := List String → SpawnResult

/-- A value a promise in the script can be rejected with:
`new Error('FFmpeg error')` from the non-zero-exit branch of `runFfmpeg`,
or the error object delivered by the child process `error` event. -/
inductive JsError where
  | ffmpegError
  | spawnFailure (err : String)
deriving DecidableEq, Repr

/-- One console line of the script, abstracted to its template and the
interpolated data (chalk styling dropped). -/
inductive LogEvent where
  /-- 'FFmpeg binary not found. Attempting to download it now...' (and the
  'This may take a moment.' line printed with it). -/
  | downloadNotice
  /-- 'FFmpeg downloaded successfully.' -/
  | downloadSucceeded
  /-- 'Failed to download FFmpeg automatically.' (and the 'Please check
  your network connection...' line printed with it). -/
  | downloadFailed
  /-- 'Manual mode: Processing files for base name "..."' -/
  | manualMode (baseName : String)
  /-- 'Automatic mode: Scanning for files in: ...' -/
  | automaticMode (dir : String)
  /-- 'No .flac files found in this directory.' -/
  | noFlacFiles
  /-- 'Processing: ...' -/
  | processing (fileName : String)
  /-- 'Skipping: Could not find all required files for base name "..."' -/
  | skipping (baseName : String)
  /-- 'Successfully created: ...' -/
  | successfullyCreated (fileName : String)
  /-- 'FFmpeg exited with code ... for ...' -/
  | ffmpegExited (code : Int) (fileName : String)
  /-- 'Failed to start FFmpeg for ...' plus the error object (the variant
  source decorates this message with a marker but is otherwise identical). -/
  | failedToStart (fileName : String) (err : String)
  /-- 'Done.' -/
  | done
deriving DecidableEq, Repr

/-- Observable side effects of a run: the argument list of every `spawn`
of the engine, in order, and every console line, in order. -/
structure Trace where
  spawns : List (List String)
  logs : List LogEvent
deriving DecidableEq, Repr

/-- Sequential composition of side effects. -/
def Trace.app (t u : Trace) : Trace := ⟨t.spawns ++ u.spawns, t.logs ++ u.logs⟩

/-- The filesystem as the script sees it: the `readdirSync` listing of the
working directory (in directory order) and the `existsSync` oracle on full
paths. -/
structure FS where
  listing : List String
  existsSync : String → Bool

/-- Environment of the startup dependency check: whether the ffmpeg-static
binary is already present (`fs.existsSync(ffmpegPath)`), and whether
running its install script (`execFileSync('node', [installScript])`)
succeeds when attempted. -/
structure Deps where
  binaryExists : Bool
  downloadOk : Bool

/-- The yargs argv the script destructures: the optional positional
`basename` and the `--lang` value (yargs defaults it to "chi"). -/
structure Argv where
  basename : Option String
  lang : String

/-- JavaScript truthiness of the `basename` value as tested by
`if (basename)`: `undefined` and the empty string are falsy. -/
def basenameTruthy : Option String → Bool
  | none => false
  | some s => !(s == "")

/-- How `main` ends: `process.exit(code)`, or the end of the function body
(normal completion, after which Node exits with status 0), or rejection of
`main()`'s promise (which is unhandled at top level). -/
inductive MainResult where
  | exitCode (code : Nat)
  | completed
  | rejected (e : JsError)
deriving DecidableEq, Repr

/-- The fixed ffmpeg argument list built inside `runFfmpeg`. -/
def ffmpegArgs (flacFile jpgFile lycFile outputFile lang : String) : List String :=
  ["-i", flacFile,
   "-i", jpgFile,
   "-i", lycFile,
   "-c:a", "alac",
   "-c:v", "copy",
   "-c:s", "mov_text",
   "-map", "0:a",
   "-map", "1:v",
   "-map", "2:s",
   "-metadata:s:s:0", "language=" ++ lang,
   "-disposition:v", "attached_pic",
   "-y",
   outputFile]

/-- `runFfmpeg` (identical in both source variants, up to a decorative
marker in the launch-failure message): builds the argument list, spawns the
engine once, and settles its promise from the child outcome — resolve on
exit 0, reject with `Error('FFmpeg error')` on non-zero exit (logging the
code), reject with the delivered error on a failed launch. -/
def runFfmpeg (engine : Engine) (flacFile jpgFile lycFile outputFile lang : String) :
    Except JsError Unit × Trace :=
  let args := ffmpegArgs flacFile jpgFile lycFile outputFile lang
  match engine args with
  | SpawnResult.exited code =>
    if code = 0 then
      (Except.ok (), ⟨[args], [LogEvent.successfullyCreated (jsBasename outputFile)]⟩)
    else
      (Except.error JsError.ffmpegError, ⟨[args], [LogEvent.ffmpegExited code (jsBasename flacFile)]⟩)
  | SpawnResult.errorEvent err =>
    (Except.error (JsError.spawnFailure err), ⟨[args], [LogEvent.failedToStart (jsBasename flacFile) err]⟩)

/-- `processSingleFile` from src/index.js: derives the four sibling paths
(subtitle extension `.lrc`), checks the three inputs with `existsSync`, and
either awaits `runFfmpeg` (whose rejection it does not catch) or logs the
skip and resolves. -/
def Src.processSingleFile (engine : Engine) (fs : FS) (baseName lang dir : String) :
    Except JsError Unit × Trace :=
  let flacFile := pathJoin dir (baseName ++ ".flac")
  let jpgFile := pathJoin dir (baseName ++ ".jpg")
  let lycFile := pathJoin dir (baseName ++ ".lrc")
  let outputFile := pathJoin dir (baseName ++ ".m4a")
  if fs.existsSync flacFile && fs.existsSync jpgFile && fs.existsSync lycFile then
    let rt := runFfmpeg engine flacFile jpgFile lycFile outputFile lang
    (rt.1, ⟨rt.2.spawns, LogEvent.processing (jsBasename flacFile) :: rt.2.logs⟩)
  else
    (Except.ok (), ⟨[], [LogEvent.skipping baseName]⟩)

/-- `processSingleFile` from the observed variant src/unnamed/part_000:
identical to `Src.processSingleFile` except that the subtitle input path
uses the extension `.lyc`. -/
def Variant.processSingleFile (engine : Engine) (fs : FS) (baseName lang dir : String) :
    Except JsError Unit × Trace :=
  let flacFile := pathJoin dir (baseName ++ ".flac")
  let jpgFile := pathJoin dir (baseName ++ ".jpg")
  let lycFile := pathJoin dir (baseName ++ ".lyc")
  let outputFile := pathJoin dir (baseName ++ ".m4a")
  if fs.existsSync flacFile && fs.existsSync jpgFile && fs.existsSync lycFile then
    let rt := runFfmpeg engine flacFile jpgFile lycFile outputFile lang
    (rt.1, ⟨rt.2.spawns, LogEvent.processing (jsBasename flacFile) :: rt.2.logs⟩)
  else
    (Except.ok (), ⟨[], [LogEvent.skipping baseName]⟩)

/-- Modelled from the spec: the item processor with the subtitle input
extension lifted into a named configuration constant, as the spec directs
for the `.lrc` / `.lyc` divergence between the two observed variants. -/
def processSingleFileExt (subExt : String) (engine : Engine) (fs : FS)
    (baseName lang dir : String) : Except JsError Unit × Trace :=
  let flacFile := pathJoin dir (baseName ++ ".flac")
  let jpgFile := pathJoin dir (baseName ++ ".jpg")
  let lycFile := pathJoin dir (baseName ++ subExt)
  let outputFile := pathJoin dir (baseName ++ ".m4a")
  if fs.existsSync flacFile && fs.existsSync jpgFile && fs.existsSync lycFile then
    let rt := runFfmpeg engine flacFile jpgFile lycFile outputFile lang
    (rt.1, ⟨rt.2.spawns, LogEvent.processing (jsBasename flacFile) :: rt.2.logs⟩)
  else
    (Except.ok (), ⟨[], [LogEvent.skipping baseName]⟩)

/-- The filter the directory scan applies to each listing entry:
`path.extname(file).toLowerCase() === '.flac'`. -/
def flacPred (f : String) : Bool := lowerString (extname f) == ".flac"

/-- The base name the loop derives from a matching entry:
`path.basename(flacFile, path.extname(flacFile))`. -/
def stripOwnExt (f : String) : String := jsBasenameSuffix f (extname f)

/-- The candidate base names the automatic mode produces from a directory
listing (the filter and per-entry stripping of lines 74-84 of
src/index.js): listing entries with audio extension, mapped to base names. -/
def discover (listing : List String) : List String :=
  (listing.filter flacPred).map stripOwnExt

/-- The `for ... of flacFiles` loop body of `processDirectory`: each entry
is stripped to its base name and awaited through `processSingleFile`; a
rejection propagates out of the loop at once (there is no try/catch), an
ok result lets the loop continue. -/
def Src.processLoop (engine : Engine) (fs : FS) (lang dir : String) :
    List String → Except JsError Unit × Trace
  | [] => (Except.ok (), ⟨[], []⟩)
  | flacFile :: rest =>
    let baseName := jsBasenameSuffix flacFile (extname flacFile)
    let rt := Src.processSingleFile engine fs baseName lang dir
    match rt.1 with
    | Except.error e => (Except.error e, rt.2)
    | Except.ok _ =>
      let rt2 := Src.processLoop engine fs lang dir rest
      (rt2.1, Trace.app rt.2 rt2.2)

/-- `processDirectory` from src/index.js: filter the listing to audio
extension entries; report and return if none; otherwise run the loop. -/
def Src.processDirectory (engine : Engine) (fs : FS) (lang dir : String) :
    Except JsError Unit × Trace :=
  let flacFiles := fs.listing.filter flacPred
  if flacFiles.isEmpty then
    (Except.ok (), ⟨[], [LogEvent.noFlacFiles]⟩)
  else
    Src.processLoop engine fs lang dir flacFiles

/-- `ensureFfmpegIsAvailable` from src/index.js: true at once when the
binary exists; otherwise logs, attempts the download, and reports whether
it succeeded. -/
def Src.ensureFfmpegIsAvailable (d : Deps) : Bool × List LogEvent :=
  if d.binaryExists then (true, [])
  else if d.downloadOk then (true, [LogEvent.downloadNotice, LogEvent.downloadSucceeded])
  else (false, [LogEvent.downloadNotice, LogEvent.downloadFailed])

/-- `main` from src/index.js: run the dependency check and
`process.exit(1)` if it fails; otherwise pick manual or automatic mode by
the truthiness of `basename`, await the processing (an uncaught rejection
makes `main()`'s promise reject before the final 'Done.' log), and
complete normally otherwise. -/
def Src.main (d : Deps) (engine : Engine) (fs : FS) (argv : Argv) (currentDir : String) :
    MainResult × Trace :=
  let ready := Src.ensureFfmpegIsAvailable d
  if !ready.1 then
    (MainResult.exitCode 1, ⟨[], ready.2⟩)
  else if basenameTruthy argv.basename then
    let bn := argv.basename.getD ""
    let rt := Src.processSingleFile engine fs bn argv.lang currentDir
    match rt.1 with
    | Except.error e =>
      (MainResult.rejected e, ⟨rt.2.spawns, ready.2 ++ LogEvent.manualMode bn :: rt.2.logs⟩)
    | Except.ok _ =>
      (MainResult.completed,
       ⟨rt.2.spawns, ready.2 ++ LogEvent.manualMode bn :: (rt.2.logs ++ [LogEvent.done])⟩)
  else
    let rt := Src.processDirectory engine fs argv.lang currentDir
    match rt.1 with
    | Except.error e =>
      (MainResult.rejected e, ⟨rt.2.spawns, ready.2 ++ LogEvent.automaticMode currentDir :: rt.2.logs⟩)
    | Except.ok _ =>
      (MainResult.completed,
       ⟨rt.2.spawns, ready.2 ++ LogEvent.automaticMode currentDir :: (rt.2.logs ++ [LogEvent.done])⟩)

/-- The four sibling paths `processSingleFile` derives for a base name
(src/index.js, subtitle extension `.lrc`), in source order: audio input,
image input, subtitle input, output. -/
def Src.itemPaths (dir baseName : String) : List String :=
  [pathJoin dir (baseName ++ ".flac"),
   pathJoin dir (baseName ++ ".jpg"),
   pathJoin dir (baseName ++ ".lrc"),
   pathJoin dir (baseName ++ ".m4a")]

/-- Whether a console line is the per-item boundary line of one processed
item: every call to `processSingleFile` emits exactly one of these first. -/
def isItemLog : LogEvent → Bool
  | LogEvent.processing _ => true
  | LogEvent.skipping _ => true
  | _ => false

/-- Number of per-item outcome lines in a log sequence. -/
def itemCount (logs : List LogEvent) : Nat := (logs.filter isItemLog).length

/-- Engine stub that always exits 0. -/
def engOK : Engine := fun _ => SpawnResult.exited 0

/-- Engine stub that always exits 1. -/
def engFail : Engine := fun _ => SpawnResult.exited 1

/-- Engine stub that always exits 3. -/
def engExit3 : Engine := fun _ => SpawnResult.exited 3

/-- Filesystem stub: two flac entries, every path exists. -/
def fsAll : FS := ⟨["a.flac", "b.flac"], fun _ => true⟩

/-- Filesystem stub: `a` has all three inputs under `/music`, `b` has only
its flac file. -/
def fsMixed : FS :=
  ⟨["a.flac", "b.flac"],
   fun p => ["/music/a.flac", "/music/a.jpg", "/music/a.lrc", "/music/b.flac"].contains p⟩

/-- Filesystem stub with no audio-extension entries (the `.flac` entry is a
hidden file, whose Node extension is empty). -/
def fsNone : FS := ⟨["notes.txt", ".flac"], fun _ => false⟩

/-- Dependency-check stub: the engine binary is present. -/
def depsOK : Deps := ⟨true, true⟩

/-- Dependency-check stub: binary absent and the download fails. -/
def depsBad : Deps := ⟨false, false⟩

/-- Engine stub whose child process cannot be started. -/
def engNoStart : Engine := fun _ => SpawnResult.errorEvent "ENOENT"

instance : DecidableEq (Except JsError Unit) := fun a b =>
  match a, b with
  | Except.ok (), Except.ok () => isTrue rfl
  | Except.error x, Except.error y =>
    if h : x = y then isTrue (by rw [h]) else isFalse (fun hc => h (by injection hc))
  | Except.ok (), Except.error _ => isFalse (fun hc => Except.noConfusion hc)
  | Except.error _, Except.ok () => isFalse (fun hc => Except.noConfusion hc)

/-- `runFfmpeg` spawns the engine exactly once, with the constructed
argument list, whatever the child outcome. -/
theorem runFfmpeg_spawns (engine : Engine) (fl jp ly ou lang : String) :
    (runFfmpeg engine fl jp ly ou lang).2.spawns = [ffmpegArgs fl jp ly ou lang] := by
  simp only [runFfmpeg]
  rcases hE : engine (ffmpegArgs fl jp ly ou lang) with code | err
  · by_cases h0 : code = 0 <;> simp [h0]
  · simp

/-- Full behavior of `runFfmpeg`, resolved solely from the child outcome:
one spawn; resolution exactly on exit 0; non-zero exit rejects with
`Error('FFmpeg error')` and logs the exit code; a failed launch rejects
with the delivered error object and logs the launch failure. -/
theorem runFfmpeg_spec (engine : Engine) (fl jp ly ou lang : String) :
    (runFfmpeg engine fl jp ly ou lang).2.spawns = [ffmpegArgs fl jp ly ou lang] ∧
      ((runFfmpeg engine fl jp ly ou lang).1 = Except.ok () ↔
        engine (ffmpegArgs fl jp ly ou lang) = SpawnResult.exited 0) ∧
      (∀ code : Int, code ≠ 0 → engine (ffmpegArgs fl jp ly ou lang) = SpawnResult.exited code →
        (runFfmpeg engine fl jp ly ou lang).1 = Except.error JsError.ffmpegError ∧
          (runFfmpeg engine fl jp ly ou lang).2.logs = [LogEvent.ffmpegExited code (jsBasename fl)]) ∧
      (∀ err : String, engine (ffmpegArgs fl jp ly ou lang) = SpawnResult.errorEvent err →
        (runFfmpeg engine fl jp ly ou lang).1 = Except.error (JsError.spawnFailure err) ∧
          (runFfmpeg engine fl jp ly ou lang).2.logs = [LogEvent.failedToStart (jsBasename fl) err]) := by
  refine ⟨runFfmpeg_spawns engine fl jp ly ou lang, ?_, ?_, ?_⟩ <;>
    simp only [runFfmpeg] <;>
    rcases hE : engine (ffmpegArgs fl jp ly ou lang) with code | err
  · by_cases h0 : code = 0 <;> simp [h0, hE]
  · simp [hE]
  · intro c hc hEc
    injection hEc with h2
    subst h2
    simp [hc]
  · intro c hc hEc
    cases hEc
  · intro e hEc
    cases hEc
  · intro e hEc
    injection hEc with h2
    subst h2
    simp

/-- `itemCount` distributes over cons. -/
theorem itemCount_cons (e : LogEvent) (l : List LogEvent) :
    itemCount (e :: l) = (if isItemLog e = true then 1 else 0) + itemCount l := by
  by_cases h : isItemLog e = true
  · simp [itemCount, List.filter_cons, h]
    omega
  · simp [itemCount, List.filter_cons, h]

/-- `itemCount` distributes over append. -/
theorem itemCount_append (l1 l2 : List LogEvent) :
    itemCount (l1 ++ l2) = itemCount l1 + itemCount l2 := by
  simp [itemCount, List.filter_append]

/-- `runFfmpeg` emits no per-item boundary line. -/
theorem itemCount_runFfmpeg (engine : Engine) (fl jp ly ou lang : String) :
    itemCount (runFfmpeg engine fl jp ly ou lang).2.logs = 0 := by
  simp only [runFfmpeg]
  rcases hE : engine (ffmpegArgs fl jp ly ou lang) with code | err
  · by_cases h0 : code = 0 <;> simp [h0, itemCount, isItemLog]
  · simp [itemCount, isItemLog]

/-- Every call to `processSingleFile` emits exactly one per-item boundary
line: `Processing:` when complete, `Skipping:` otherwise. -/
theorem itemCount_processSingleFile (engine : Engine) (fs : FS) (b lang dir : String) :
    itemCount (Src.processSingleFile engine fs b lang dir).2.logs = 1 := by
  simp only [Src.processSingleFile]
  split
  · simp [itemCount_cons, isItemLog, itemCount_runFfmpeg]
  · simp [itemCount, isItemLog]

/-- When every entry of the list resolves (its item is skipped or its
engine invocation exits 0), the batch loop resolves after processing every
entry, emitting exactly one per-item outcome line per entry. -/
theorem processLoop_ok (engine : Engine) (fs : FS) (lang dir : String) (files : List String)
    (h : ∀ f ∈ files,
      (Src.processSingleFile engine fs (jsBasenameSuffix f (extname f)) lang dir).1 = Except.ok ()) :
    (Src.processLoop engine fs lang dir files).1 = Except.ok () ∧
      itemCount (Src.processLoop engine fs lang dir files).2.logs = files.length := by
  induction files with
  | nil => simp [Src.processLoop, itemCount]
  | cons f rest ih =>
    have hf := h f (List.mem_cons_self f rest)
    have hrest := ih (fun g hg => h g (List.mem_cons_of_mem f hg))
    simp only [Src.processLoop]
    rw [hf]
    refine ⟨hrest.1, ?_⟩
    simp only [Trace.app, itemCount_append, itemCount_processSingleFile, hrest.2, List.length_cons]
    omega

/-- C3 (confirmed): for every base name whose audio, image, and subtitle
input files all exist, `processSingleFile` spawns the engine exactly once,
with precisely the section-6 argument list — with the derived paths and the
caller-supplied language tag substituted verbatim — and its promise
resolves (the item is Converted) exactly when the engine exits with
status 0. -/
theorem C3_complete_item_invokes_engine_once (engine : Engine) (fs : FS) (b lang dir : String)
    (ha : fs.existsSync (pathJoin dir (b ++ ".flac")) = true)
    (hi : fs.existsSync (pathJoin dir (b ++ ".jpg")) = true)
    (hs : fs.existsSync (pathJoin dir (b ++ ".lrc")) = true) :
    (Src.processSingleFile engine fs b lang dir).2.spawns =
      [["-i", pathJoin dir (b ++ ".flac"),
        "-i", pathJoin dir (b ++ ".jpg"),
        "-i", pathJoin dir (b ++ ".lrc"),
        "-c:a", "alac",
        "-c:v", "copy",
        "-c:s", "mov_text",
        "-map", "0:a",
        "-map", "1:v",
        "-map", "2:s",
        "-metadata:s:s:0", "language=" ++ lang,
        "-disposition:v", "attached_pic",
        "-y", pathJoin dir (b ++ ".m4a")]] ∧
      ((Src.processSingleFile engine fs b lang dir).1 = Except.ok () ↔
        engine (ffmpegArgs (pathJoin dir (b ++ ".flac")) (pathJoin dir (b ++ ".jpg"))
          (pathJoin dir (b ++ ".lrc")) (pathJoin dir (b ++ ".m4a")) lang) =
          SpawnResult.exited 0) := by
  have hr := runFfmpeg_spec engine (pathJoin dir (b ++ ".flac")) (pathJoin dir (b ++ ".jpg"))
    (pathJoin dir (b ++ ".lrc")) (pathJoin dir (b ++ ".m4a")) lang
  simp only [Src.processSingleFile, ha, hi, hs, Bool.and_self, if_true]
  exact ⟨hr.1, hr.2.1⟩

/-- C3 witness: with a stub engine that exits 0 and a filesystem where all
inputs exist, the item spawns the exact section-6 argument list once and
resolves. -/
theorem C3_witness :
    (Src.processSingleFile engOK fsAll "song1" "chi" "/music").2.spawns =
      [["-i", "/music/song1.flac",
        "-i", "/music/song1.jpg",
        "-i", "/music/song1.lrc",
        "-c:a", "alac",
        "-c:v", "copy",
        "-c:s", "mov_text",
        "-map", "0:a",
        "-map", "1:v",
        "-map", "2:s",
        "-metadata:s:s:0", "language=chi",
        "-disposition:v", "attached_pic",
        "-y", "/music/song1.m4a"]] ∧
      ((Src.processSingleFile engOK fsAll "song1" "chi" "/music").1 = Except.ok () ↔
        engOK (ffmpegArgs "/music/song1.flac" "/music/song1.jpg" "/music/song1.lrc"
          "/music/song1.m4a" "chi") = SpawnResult.exited 0) :=
  C3_complete_item_invokes_engine_once engOK fsAll "song1" "chi" "/music" rfl rfl rfl

/-- C5 (confirmed): for every base name with at least one missing input,
`processSingleFile` resolves at once with the `Skipping:` line and no
engine invocation — a normal outcome, not a rejection, so it cannot abort
the batch. -/
theorem C5_incomplete_item_skipped (engine : Engine) (fs : FS) (b lang dir : String)
    (h : fs.existsSync (pathJoin dir (b ++ ".flac")) = false ∨
         fs.existsSync (pathJoin dir (b ++ ".jpg")) = false ∨
         fs.existsSync (pathJoin dir (b ++ ".lrc")) = false) :
    Src.processSingleFile engine fs b lang dir =
      (Except.ok (), ⟨[], [LogEvent.skipping b]⟩) := by
  simp only [Src.processSingleFile]
  rcases h with h | h | h <;> simp [h]

/-- C5 witness: base name "b" has its image input missing, so the item is
skipped with no spawn. -/
theorem C5_witness :
    Src.processSingleFile engOK fsMixed "b" "chi" "/music" =
      (Except.ok (), ⟨[], [LogEvent.skipping "b"]⟩) :=
  C5_incomplete_item_skipped engOK fsMixed "b" "chi" "/music" (Or.inr (Or.inl rfl))

/-- C6 (confirmed): the engine invoker resolves its result solely from the
child process outcome, spawning exactly once (no retry): exit 0 resolves;
a non-zero exit rejects with the fixed engine error while the surfaced
report carries that exit code; a launch failure rejects with the distinct
error carrying the delivered cause. -/
theorem C6_invoker_resolution (engine : Engine) (fl jp ly ou lang : String) :
    (runFfmpeg engine fl jp ly ou lang).2.spawns = [ffmpegArgs fl jp ly ou lang] ∧
      ((runFfmpeg engine fl jp ly ou lang).1 = Except.ok () ↔
        engine (ffmpegArgs fl jp ly ou lang) = SpawnResult.exited 0) ∧
      (∀ code : Int, code ≠ 0 → engine (ffmpegArgs fl jp ly ou lang) = SpawnResult.exited code →
        (runFfmpeg engine fl jp ly ou lang).1 = Except.error JsError.ffmpegError ∧
          (runFfmpeg engine fl jp ly ou lang).2.logs = [LogEvent.ffmpegExited code (jsBasename fl)]) ∧
      (∀ err : String, engine (ffmpegArgs fl jp ly ou lang) = SpawnResult.errorEvent err →
        (runFfmpeg engine fl jp ly ou lang).1 = Except.error (JsError.spawnFailure err) ∧
          (runFfmpeg engine fl jp ly ou lang).2.logs = [LogEvent.failedToStart (jsBasename fl) err]) :=
  runFfmpeg_spec engine fl jp ly ou lang

/-- C6 witness: a child exiting 3 rejects with the engine error and logs
exit code 3; a child that cannot start rejects with the distinct
launch-failure error carrying the cause. -/
theorem C6_witness :
    ((runFfmpeg engExit3 "a.flac" "a.jpg" "a.lrc" "a.m4a" "chi").1 =
        Except.error JsError.ffmpegError ∧
      (runFfmpeg engExit3 "a.flac" "a.jpg" "a.lrc" "a.m4a" "chi").2.logs =
        [LogEvent.ffmpegExited 3 (jsBasename "a.flac")]) ∧
    ((runFfmpeg engNoStart "a.flac" "a.jpg" "a.lrc" "a.m4a" "chi").1 =
        Except.error (JsError.spawnFailure "ENOENT") ∧
      (runFfmpeg engNoStart "a.flac" "a.jpg" "a.lrc" "a.m4a" "chi").2.logs =
        [LogEvent.failedToStart (jsBasename "a.flac") "ENOENT"]) :=
  ⟨(C6_invoker_resolution engExit3 "a.flac" "a.jpg" "a.lrc" "a.m4a" "chi").2.2.1
      3 (by decide) rfl,
   (C6_invoker_resolution engNoStart "a.flac" "a.jpg" "a.lrc" "a.m4a" "chi").2.2.2
      "ENOENT" rfl⟩

/-- C4 (confirmed): the candidate production of the directory scan yields,
in listing order, exactly one base name (entry minus its extension) per
entry whose Node extension lowercases to `.flac`, and nothing for any
other entry; in particular the number of candidates equals the number of
matching entries. -/
theorem C4_discover_exact : ∀ listing : List String,
    discover listing =
      listing.flatMap (fun f =>
        if lowerString (extname f) = ".flac" then [jsBasenameSuffix f (extname f)] else []) ∧
    (discover listing).length = (listing.filter flacPred).length := by
  intro listing
  constructor
  · induction listing with
    | nil => rfl
    | cons f rest ih =>
      by_cases h : lowerString (extname f) = ".flac"
      · have hb : flacPred f = true := by simp [flacPred, h]
        simpa [discover, List.filter_cons, hb, h, stripOwnExt] using ih
      · have hb : flacPred f = false := by simp [flacPred, h]
        simpa [discover, List.filter_cons, hb, h] using ih
  · simp [discover]

/-- C1 (amended): the batch absorbs missing-input items at the item
boundary — a `Skipping` outcome resolves and never stops the loop — and
whenever no processed item's engine invocation fails, automatic mode
processes every one of the N candidates and yields exactly N per-item
outcomes. (The unamended claim fails: an engine failure rejects, the
rejection is not caught at the item boundary, and it aborts the loop.) -/
theorem C1_batch_complete_when_no_engine_failure (engine : Engine) (fs : FS) (lang dir : String)
    (h : ∀ f ∈ fs.listing.filter flacPred,
      (Src.processSingleFile engine fs (jsBasenameSuffix f (extname f)) lang dir).1 =
        Except.ok ()) :
    (Src.processDirectory engine fs lang dir).1 = Except.ok () ∧
      itemCount (Src.processDirectory engine fs lang dir).2.logs =
        (fs.listing.filter flacPred).length := by
  simp only [Src.processDirectory]
  split
  · rename_i hE
    rw [List.isEmpty_iff] at hE
    simp [hE, itemCount, isItemLog]
  · exact processLoop_ok engine fs lang dir _ h

/-- C1 witness: a directory with one complete candidate and one candidate
missing its sidecars (which is skipped) processes both and yields two
per-item outcomes. -/
theorem C1_witness :
    (Src.processDirectory engOK fsMixed "chi" "/music").1 = Except.ok () ∧
      itemCount (Src.processDirectory engOK fsMixed "chi" "/music").2.logs =
        (fsMixed.listing.filter flacPred).length :=
  C1_batch_complete_when_no_engine_failure engOK fsMixed "chi" "/music" (by decide)

/-- C1 counterexample: two candidates, both complete, engine exits 1 on
the first — the loop rejects after the first item, emitting one per-item
outcome instead of two, and candidate "b" is never reached (its logs never
appear). This refutes the claim that per-item engine failures are absorbed
at the item-processing boundary and never stop the batch. -/
theorem C1_counterexample :
    (fsAll.listing.filter flacPred).length = 2 ∧
      (Src.processDirectory engFail fsAll "chi" "/music").2.logs =
        [LogEvent.processing "a.flac", LogEvent.ffmpegExited 1 "a.flac"] ∧
      itemCount (Src.processDirectory engFail fsAll "chi" "/music").2.logs = 1 ∧
      (Src.processDirectory engFail fsAll "chi" "/music").1 =
        Except.error JsError.ffmpegError :=
  ⟨rfl, rfl, rfl, rfl⟩

/-- C7 (confirmed): when the directory scan yields zero audio-extension
matches, `processDirectory` only reports the empty result and resolves
(no item processed, no spawn), and — with the dependency check passing —
the automatic-mode run completes normally with zero engine invocations. -/
theorem C7_no_candidates_clean (d : Deps) (engine : Engine) (fs : FS) (lang cwd : String)
    (h : fs.listing.filter flacPred = [])
    (hd : (d.binaryExists || d.downloadOk) = true) :
    Src.processDirectory engine fs lang cwd = (Except.ok (), ⟨[], [LogEvent.noFlacFiles]⟩) ∧
      (Src.main d engine fs ⟨none, lang⟩ cwd).1 = MainResult.completed ∧
      (Src.main d engine fs ⟨none, lang⟩ cwd).2.spawns = [] := by
  have h1 : Src.processDirectory engine fs lang cwd =
      (Except.ok (), ⟨[], [LogEvent.noFlacFiles]⟩) := by
    simp [Src.processDirectory, h]
  have hready : (Src.ensureFfmpegIsAvailable d).1 = true := by
    rcases d with ⟨bi, dl⟩
    cases bi <;> cases dl <;> simp_all [Src.ensureFfmpegIsAvailable]
  refine ⟨h1, ?_, ?_⟩ <;> simp [Src.main, hready, basenameTruthy, h1]

/-- C7 witness: a listing with no audio-extension match (its `.flac` entry
is a hidden file with empty Node extension) reports the empty result and
the run completes with no spawn. -/
theorem C7_witness :
    Src.processDirectory engOK fsNone "chi" "/music" =
        (Except.ok (), ⟨[], [LogEvent.noFlacFiles]⟩) ∧
      (Src.main depsOK engOK fsNone ⟨none, "chi"⟩ "/music").1 = MainResult.completed ∧
      (Src.main depsOK engOK fsNone ⟨none, "chi"⟩ "/music").2.spawns = [] :=
  C7_no_candidates_clean depsOK engOK fsNone "chi" "/music" rfl rfl

/-- C8 (confirmed): the four paths an item derives are exactly the working
directory joined with the base name and the four fixed extensions — so all
four share the same directory and base name — and the engine is invoked
(exactly one spawn) precisely when the three input paths exist at
processing time. -/
theorem C8_item_paths_invariant (engine : Engine) (fs : FS) (b lang dir : String) :
    Src.itemPaths dir b =
      [".flac", ".jpg", ".lrc", ".m4a"].map (fun ext => dir ++ "/" ++ (b ++ ext)) ∧
      ((Src.processSingleFile engine fs b lang dir).2.spawns.length = 1 ↔
        (fs.existsSync (pathJoin dir (b ++ ".flac")) = true ∧
          fs.existsSync (pathJoin dir (b ++ ".jpg")) = true ∧
          fs.existsSync (pathJoin dir (b ++ ".lrc")) = true)) := by
  refine ⟨rfl, ?_⟩
  cases hA : fs.existsSync (pathJoin dir (b ++ ".flac")) <;>
    cases hB : fs.existsSync (pathJoin dir (b ++ ".jpg")) <;>
      cases hC : fs.existsSync (pathJoin dir (b ++ ".lrc")) <;>
        simp [Src.processSingleFile, hA, hB, hC, runFfmpeg_spawns]

/-- C8 witness: for base "song1" under "/music" with all inputs present,
the four derived paths share base and directory and exactly one spawn
occurs. -/
theorem C8_witness :
    Src.itemPaths "/music" "song1" =
      [".flac", ".jpg", ".lrc", ".m4a"].map (fun ext => "/music" ++ "/" ++ ("song1" ++ ext)) ∧
      (Src.processSingleFile engOK fsAll "song1" "chi" "/music").2.spawns.length = 1 :=
  ⟨(C8_item_paths_invariant engOK fsAll "song1" "chi" "/music").1,
   (C8_item_paths_invariant engOK fsAll "song1" "chi" "/music").2.mpr ⟨rfl, rfl, rfl⟩⟩

/-- C2 (amended): `process.exit(1)` happens exactly when the pre-flight
dependency check fails, and then no item is processed (no spawn, no item
log); when the check passes, `main` never calls `process.exit`, so it
either completes normally (Node then exits 0) or ends with its promise
rejected by a propagated per-item engine failure — in which case normal
completion is never reached. -/
theorem C2_exit_status (d : Deps) (engine : Engine) (fs : FS) (bn : Option String)
    (lang cwd : String) :
    ((d.binaryExists || d.downloadOk) = false →
      Src.main d engine fs ⟨bn, lang⟩ cwd =
        (MainResult.exitCode 1, ⟨[], [LogEvent.downloadNotice, LogEvent.downloadFailed]⟩)) ∧
    ((d.binaryExists || d.downloadOk) = true →
      ∀ n : Nat, ¬(Src.main d engine fs ⟨bn, lang⟩ cwd).1 = MainResult.exitCode n) := by
  rcases d with ⟨bi, dl⟩
  constructor
  · intro h
    cases bi <;> cases dl <;> simp_all
    rfl
  · intro h n
    have hready : (Src.ensureFfmpegIsAvailable ⟨bi, dl⟩).1 = true := by
      cases bi <;> cases dl <;> simp_all [Src.ensureFfmpegIsAvailable]
    simp only [Src.main, hready, Bool.not_true, Bool.false_eq_true, if_false]
    cases hbt : basenameTruthy bn
    · simp only [Bool.false_eq_true, if_false]
      rcases hp : (Src.processDirectory engine fs lang cwd).1 with e | u <;> simp [hp]
    · simp only [if_true]
      rcases hp : (Src.processSingleFile engine fs (bn.getD "") lang cwd).1 with e | u <;>
        simp [hp]

/-- C2 witness: with the binary absent and the download failing, the run
exits 1 having processed nothing; with the check passing, the result is
never an explicit exit code. -/
theorem C2_witness :
    (Src.main depsBad engOK fsAll ⟨none, "chi"⟩ "/music" =
      (MainResult.exitCode 1, ⟨[], [LogEvent.downloadNotice, LogEvent.downloadFailed]⟩)) ∧
    ¬(Src.main depsOK engOK fsAll ⟨none, "chi"⟩ "/music").1 = MainResult.exitCode 1 :=
  ⟨(C2_exit_status depsBad engOK fsAll none "chi" "/music").1 rfl,
   (C2_exit_status depsOK engOK fsAll none "chi" "/music").2 rfl 1⟩

/-- C2 counterexample: a run whose only item fails (engine exits 1) does
not complete normally at all — `main()`'s promise is rejected before the
final 'Done.' line, so the process does not reach the status-0 normal
completion the claim asserts for runs with Failed items. -/
theorem C2_counterexample :
    Src.main depsOK engFail fsAll ⟨none, "chi"⟩ "/music" =
      (MainResult.rejected JsError.ffmpegError,
       ⟨[ffmpegArgs "/music/a.flac" "/music/a.jpg" "/music/a.lrc" "/music/a.m4a" "chi"],
        [LogEvent.automaticMode "/music", LogEvent.processing "a.flac",
         LogEvent.ffmpegExited 1 "a.flac"]⟩) := rfl

/-- C9 (confirmed): the two observed item processors are the same function
up to a single configuration constant — each coincides with the
configurable processor instantiated at its subtitle extension (`.lrc` for
src/index.js, `.lyc` for the variant), so for every base name, working
directory and language tag they derive identical audio, image and output
paths and build identical engine argument lists, differing only in the
subtitle input path. -/
theorem C9_variants_differ_only_in_subtitle_ext :
    (∀ (engine : Engine) (fs : FS) (b lang dir : String),
      Src.processSingleFile engine fs b lang dir =
        processSingleFileExt ".lrc" engine fs b lang dir) ∧
    (∀ (engine : Engine) (fs : FS) (b lang dir : String),
      Variant.processSingleFile engine fs b lang dir =
        processSingleFileExt ".lyc" engine fs b lang dir) :=
  ⟨fun _ _ _ _ _ => rfl, fun _ _ _ _ _ => rfl⟩

/-- C10 (confirmed): an empty-string positional base name is falsy, so the
orchestrator takes the automatic (directory-scan) branch exactly as when
the base name is absent; manual mode is entered only for a non-empty base
name, because mode selection tests JavaScript truthiness. -/
theorem C10_empty_basename_is_automatic :
    (∀ (d : Deps) (engine : Engine) (fs : FS) (lang cwd : String),
      Src.main d engine fs ⟨some "", lang⟩ cwd = Src.main d engine fs ⟨none, lang⟩ cwd) ∧
    basenameTruthy (some "") = false ∧
    basenameTruthy none = false ∧
    (∀ s : String, basenameTruthy (some s) = !(s == "")) ∧
    (∀ (engine : Engine) (fs : FS) (lang cwd : String),
      (Src.main depsOK engine fs ⟨some "", lang⟩ cwd).2.logs.head? =
        some (LogEvent.automaticMode cwd)) := by
  refine ⟨fun d engine fs lang cwd => rfl, rfl, rfl, fun s => rfl,
    fun engine fs lang cwd => ?_⟩
  simp only [Src.main, Src.ensureFfmpegIsAvailable, depsOK]
  rcases hp : (Src.processDirectory engine fs lang cwd).1 with e | u <;>
    simp [hp, basenameTruthy]
